import Mathlib

/-!
Verification of the titlebot URL-resolution engine (titlebot.go) against its
natural-language specification.  Go strings are shallowly embedded as lists of
characters; Go int64 nanosecond durations and Unix timestamps as Int; the
fallible HTTP and JSON layers as explicit outcome values.  Every definition is
translated from the Go source in src/titlebot.go unless its doc comment says
otherwise.
-/

/-- Go strings, embedded as lists of characters. -/
abbrev Str := List Char

/-- Convert a Lean string literal into the embedding type. -/
def toStr (s : String) : Str := s.toList

/-! Constants from the `const` block of titlebot.go. -/

def trustedReadLimit : Nat := 1024 * 1024

def genericTitleReadLimit : Nat := 1024 * 64

def titleCharLimit : Nat := 400

def maxUrlsPerMessage : Nat := 4

def concurrencyLimit : Nat := 128

/-! ## Domain matching (titlebot.go, domainMatch and isGarbageJSDomain) -/

/-- Go strings.TrimSuffix: drop the suffix if present, else return the string
unchanged. -/
def trimSuffix (s suffix : Str) : Str :=
  if suffix.isSuffixOf s then s.take (s.length - suffix.length) else s

/-- Go source:
host != trimmed AND (trimmed is empty OR trimmed ends with a dot),
where trimmed is host with the suffix domain removed. -/
def domainMatch (host domain : Str) : Bool :=
  let trimmed := trimSuffix host domain
  (host != trimmed) && (trimmed == [] || (toStr ".").isSuffixOf trimmed)

/-- The spec wording of domain matching: the host equals the domain or ends
with a dot followed by the domain. -/
def domainMatchSpec (host domain : Str) : Prop :=
  host = domain ∨ ('.' :: domain) <:+ host

instance (host domain : Str) : Decidable (domainMatchSpec host domain) := by
  unfold domainMatchSpec
  infer_instance

/-- The fixed allow-list of markup-heavy domains (titlebot.go,
garbageJSDomains). -/
def garbageJSDomains : List Str :=
  [toStr "amazon.com", toStr "amazon.ca", toStr "amzn.to", toStr "imdb.com",
   toStr "google.com", toStr "goo.gl", toStr "github.com", toStr "youtube.com",
   toStr "youtu.be"]

/-- Go source: a host gets the extended budget iff it domain-matches some
entry of the allow-list. -/
def isGarbageJSDomain (host : Str) : Bool :=
  garbageJSDomains.any (fun domain => domainMatch host domain)

/-! Helper lemmas about trimSuffix and domainMatch. -/

theorem trimSuffix_of_append (t d : Str) : trimSuffix (t ++ d) d = t := by
  unfold trimSuffix
  rw [if_pos]
  · simp
  · exact List.isSuffixOf_iff_suffix.mpr ⟨t, rfl⟩

theorem trimSuffix_of_not_suffix (h d : Str) (hnot : ¬ d <:+ h) :
    trimSuffix h d = h := by
  unfold trimSuffix
  rw [if_neg]
  simp only [List.isSuffixOf_iff_suffix]
  exact hnot

theorem suffix_append_right_iff (a b c : Str) : a ++ c <:+ b ++ c ↔ a <:+ b := by
  constructor
  · rintro ⟨u, hu⟩
    refine ⟨u, ?_⟩
    have hc : (u ++ a) ++ c = b ++ c := by simpa [List.append_assoc] using hu
    exact List.append_cancel_right hc
  · rintro ⟨u, rfl⟩
    exact ⟨u, by simp [List.append_assoc]⟩

theorem domainMatch_iff (h d : Str) (hd : d ≠ []) :
    domainMatch h d = true ↔ domainMatchSpec h d := by
  by_cases hs : d <:+ h
  · obtain ⟨t, rfl⟩ := hs
    unfold domainMatch domainMatchSpec
    rw [trimSuffix_of_append]
    simp only [bne_iff_ne, ne_eq, Bool.and_eq_true, Bool.or_eq_true, beq_iff_eq,
      List.isSuffixOf_iff_suffix, decide_eq_true_eq]
    have h1 : (t ++ d ≠ t) := by
      intro hcontra
      exact hd (by simpa using hcontra)
    have h2 : (t ++ d = d) ↔ t = [] := by
      constructor
      · intro hcontra
        have := List.append_cancel_right (hcontra.trans (List.nil_append d).symm)
        exact this
      · rintro rfl; simp
    have h3 : ('.' :: d) <:+ t ++ d ↔ (toStr ".") <:+ t := by
      have : ('.' :: d) = (toStr ".") ++ d := rfl
      rw [this, suffix_append_right_iff]
    constructor
    · rintro ⟨-, h4 | h4⟩
      · exact Or.inl (h2.mpr h4)
      · exact Or.inr (h3.mpr h4)
    · rintro (h4 | h4)
      · exact ⟨h1, Or.inl (h2.mp h4)⟩
      · exact ⟨h1, Or.inr (h3.mp h4)⟩
  · unfold domainMatch domainMatchSpec
    rw [trimSuffix_of_not_suffix h d hs]
    simp only [bne_self_eq_false, Bool.false_and, Bool.false_eq_true, false_iff]
    rintro (rfl | hsuf)
    · exact hs (List.suffix_refl _)
    · exact hs (List.IsSuffix.trans ⟨['.'], rfl⟩ hsuf)

/-- Claim C1, as stated, is false at the concrete input host = "" and
domain = "": the claim demands a match (the host equals the domain), but
domainMatch returns false because TrimSuffix with an empty suffix leaves the
host unchanged. -/
theorem C1_counterexample :
    ¬ (domainMatch (toStr "") (toStr "") = true ↔
       domainMatchSpec (toStr "") (toStr "")) := by
  decide

/-- Claim C1 amended: for every host and every NON-EMPTY domain, domainMatch
returns true iff the host equals the domain or ends with a dot followed by the
domain; in particular www.google.com matches google.com, evilgoogle.com does
not, and the extended-budget allow-list check isGarbageJSDomain classifies
those hosts accordingly. -/
theorem C1_domainMatch :
    (∀ (host domain : Str), domain ≠ [] →
      (domainMatch host domain = true ↔ domainMatchSpec host domain)) ∧
    domainMatch (toStr "www.google.com") (toStr "google.com") = true ∧
    domainMatch (toStr "google.com") (toStr "google.com") = true ∧
    domainMatch (toStr "evilgoogle.com") (toStr "google.com") = false ∧
    domainMatch (toStr "google.com") (toStr "www.google.com") = false ∧
    isGarbageJSDomain (toStr "www.google.com") = true ∧
    isGarbageJSDomain (toStr "evilgoogle.com") = false := by
  refine ⟨fun host domain hd => domainMatch_iff host domain hd, ?_, ?_, ?_, ?_, ?_, ?_⟩
  all_goals decide

/-- Witness for claim C1: the amended theorem applied at the concrete input
host = "www.google.com", domain = "google.com", with the non-emptiness
hypothesis discharged by evaluation. -/
theorem C1_witness :
    toStr "google.com" ≠ [] ∧
    (domainMatch (toStr "www.google.com") (toStr "google.com") = true ↔
     domainMatchSpec (toStr "www.google.com") (toStr "google.com")) :=
  ⟨by decide, C1_domainMatch.1 (toStr "www.google.com") (toStr "google.com") (by decide)⟩

/-! ## Time display (titlebot.go, displayTwitterTime and humanReadableDuration)

Go durations and timestamps are int64 nanosecond counts; they are embedded as
Int (the values involved are far from the int64 overflow boundary). -/

def nsPerMillisecond : Int := 1000000

def nsPerSecond : Int := 1000000000

def nsPerMinute : Int := 60 * nsPerSecond

def nsPerHour : Int := 60 * nsPerMinute

def nsPerDay : Int := 24 * nsPerHour

def nsPerYear : Int := 365 * nsPerDay

/-- The humanDurations table from titlebot.go: unit sizes in nanoseconds with
their one-letter names, in descending order. -/
def humanDurations : List (Int × Str) :=
  [(nsPerYear, toStr "y"), (nsPerDay, toStr "d"), (nsPerHour, toStr "h"),
   (nsPerMinute, toStr "m"), (nsPerSecond, toStr "s"),
   (nsPerMillisecond, toStr "ms")]

/-- Decimal rendering of a Go integer as fmt.Fprintf with the %d verb does. -/
def intToStr (n : Int) : Str :=
  if n < 0 then '-' :: Nat.toDigits 10 (-n).toNat else Nat.toDigits 10 n.toNat

/-- The loop body of humanReadableDuration, translated statement by statement:
i is the current index, found the index of the first emitted unit (-1 before
any emission), d the remaining duration, out the accumulated output.  The Go
break (found != -1 and i > found+1) ends the loop; a unit is emitted only when
d strictly exceeds it, using truncated division and remainder as Go int64
division does. -/
def hrdLoop : List (Int × Str) → Nat → Int → Int → Str → Str
  | [], _, _, _, out => out
  | (dur, name) :: rest, i, found, d, out =>
    if found ≠ -1 ∧ (i : Int) > found + 1 then out
    else if d > dur then
      hrdLoop rest (i + 1) (if found = -1 then (i : Int) else found) (d.tmod dur)
        (out ++ intToStr (d.tdiv dur) ++ name)
    else hrdLoop rest (i + 1) found d out

/-- Go source humanReadableDuration: run the loop over the unit table starting
with nothing found and an empty output. -/
def humanReadableDuration (d : Int) : Str :=
  hrdLoop humanDurations 0 (-1) d []

/-- Proleptic Gregorian calendar date from a count of days since 1970-01-01
(the standard civil-from-days algorithm, as used for Unix time to calendar
conversion; Go's time.Time.Format("2006-01-02") renders exactly this date for
a UTC time). -/
def civilFromDays (days : Int) : Int × Int × Int :=
  let z := days + 719468
  let era := z.fdiv 146097
  let doe := z - era * 146097
  let yoe := (doe - doe.fdiv 1460 + doe.fdiv 36524 - doe.fdiv 146096).fdiv 365
  let y := yoe + era * 400
  let doy := doe - (365 * yoe + yoe.fdiv 4 - yoe.fdiv 100)
  let mp := (5 * doy + 2).fdiv 153
  let dd := doy - (153 * mp + 2).fdiv 5 + 1
  let m := mp + (if mp < 10 then 3 else -9)
  (y + (if m ≤ 2 then 1 else 0), m, dd)

/-- Left-pad a numeral with zeros to the given width. -/
def padZeros (width : Nat) (digits : Str) : Str :=
  List.replicate (width - digits.length) '0' ++ digits

/-- Go time.Time.Format with layout "2006-01-02" on a UTC instant given in
nanoseconds since the Unix epoch: four-digit year, two-digit month, two-digit
day separated by dashes. -/
def formatDate (tNanos : Int) : Str :=
  let days := (tNanos.fdiv nsPerSecond).fdiv 86400
  let c := civilFromDays days
  let y := c.1
  let m := c.2.1
  let dd := c.2.2
  (if y < 0 then '-' :: padZeros 4 (Nat.toDigits 10 (-y).toNat)
   else padZeros 4 (Nat.toDigits 10 y.toNat)) ++
  toStr "-" ++ padZeros 2 (Nat.toDigits 10 m.toNat) ++
  toStr "-" ++ padZeros 2 (Nat.toDigits 10 dd.toNat)

/-- Go source displayTwitterTime, with time.Since(then) made explicit as the
difference of a current instant and the creation instant (both nanoseconds
since the Unix epoch): over seven days of elapsed time renders the absolute
date, otherwise the relative duration followed by " ago". -/
def displayTwitterTime (now createdAt : Int) : Str :=
  let elapsed := now - createdAt
  if elapsed > 7 * 24 * nsPerHour then formatDate createdAt
  else humanReadableDuration elapsed ++ toStr " ago"

/-- Claim C2, as stated, is false at the concrete input of an elapsed duration
of exactly 25 hours: the code renders "1d ago", not "1d1h ago", because each
unit is emitted only when the remaining duration STRICTLY exceeds it (the
leftover hour is not strictly greater than one hour). -/
theorem C2_counterexample :
    displayTwitterTime (25 * nsPerHour) 0 = toStr "1d ago" ∧
    toStr "1d ago" ≠ toStr "1d1h ago" := by
  constructor
  · decide
  · decide

/-- Claim C2 amended: the display renders the absolute YYYY-MM-DD creation
date exactly when the elapsed time strictly exceeds 7 days, and otherwise a
relative duration followed by " ago" in which a unit is included only when the
remaining duration strictly exceeds that unit, and only the first included
unit and the unit immediately below it are ever considered.  Exactly 25
elapsed hours renders "1d ago" (the leftover hour is not strictly more than an
hour), 90 elapsed minutes renders "1h30m ago", and 8 elapsed days renders an
absolute date. -/
theorem C2_displayTwitterTime :
    (∀ now createdAt : Int, now - createdAt > 7 * 24 * nsPerHour →
      displayTwitterTime now createdAt = formatDate createdAt) ∧
    (∀ now createdAt : Int, now - createdAt ≤ 7 * 24 * nsPerHour →
      displayTwitterTime now createdAt =
        humanReadableDuration (now - createdAt) ++ toStr " ago") ∧
    humanReadableDuration (25 * nsPerHour) = toStr "1d" ∧
    humanReadableDuration (90 * nsPerMinute) = toStr "1h30m" ∧
    displayTwitterTime (8 * nsPerDay) 0 = toStr "1970-01-01" := by
  refine ⟨?_, ?_, by decide, by decide, by decide⟩
  · intro now createdAt h
    simp only [displayTwitterTime]
    rw [if_pos h]
  · intro now createdAt h
    simp only [displayTwitterTime]
    rw [if_neg (not_lt.mpr h)]

/-- Witness for claim C2: the amended theorem applied at the concrete elapsed
times of 8 days (absolute-date branch) and 90 minutes (relative branch). -/
theorem C2_witness :
    displayTwitterTime (8 * nsPerDay) 0 = formatDate 0 ∧
    displayTwitterTime (90 * nsPerMinute) 0 =
      humanReadableDuration (90 * nsPerMinute - 0) ++ toStr " ago" :=
  ⟨C2_displayTwitterTime.1 (8 * nsPerDay) 0 (by decide),
   C2_displayTwitterTime.2.1 (90 * nsPerMinute) 0 (by decide)⟩

theorem hrdLoop_eq_out_of_le (l : List (Int × Str)) (i : Nat) (d : Int)
    (out : Str) (hall : ∀ p ∈ l, d ≤ p.1) :
    hrdLoop l i (-1) d out = out := by
  induction l generalizing i with
  | nil => rfl
  | cons p rest ih =>
    obtain ⟨dur, name⟩ := p
    simp only [hrdLoop]
    rw [if_neg (by simp),
        if_neg (not_lt.mpr (hall (dur, name) (List.mem_cons_self _ _)))]
    exact ih (i + 1) (fun q hq => hall q (List.mem_cons_of_mem _ hq))

theorem humanReadableDuration_eq_nil_of_le (d : Int)
    (hd : d ≤ nsPerMillisecond) : humanReadableDuration d = [] := by
  unfold humanReadableDuration
  apply hrdLoop_eq_out_of_le
  intro p hp
  have hm : nsPerMillisecond ≤ p.1 := by
    simp only [humanDurations, List.mem_cons, List.not_mem_nil, or_false] at hp
    rcases hp with rfl | rfl | rfl | rfl | rfl | rfl <;> decide
  exact le_trans hd hm

/-- Claim C10: every unit comparison in humanReadableDuration is strict, so
any elapsed duration of at most one millisecond, including zero and negative
elapsed times, yields the empty string, and displayTwitterTime then returns
exactly " ago" with no duration component. -/
theorem C10_tiny_elapsed :
    (∀ d : Int, d ≤ nsPerMillisecond → humanReadableDuration d = []) ∧
    (∀ now createdAt : Int, now - createdAt ≤ nsPerMillisecond →
      displayTwitterTime now createdAt = toStr " ago") := by
  refine ⟨humanReadableDuration_eq_nil_of_le, ?_⟩
  intro now createdAt h
  simp only [displayTwitterTime]
  rw [if_neg (not_lt.mpr (le_trans h (by decide)))]
  rw [humanReadableDuration_eq_nil_of_le _ h]
  rfl

/-- Witness for claim C10: the theorem applied at the concrete elapsed
durations of exactly one millisecond, zero, and a negative value (post dated
in the future), and at a concrete pair of equal instants. -/
theorem C10_witness :
    humanReadableDuration nsPerMillisecond = [] ∧
    humanReadableDuration 0 = [] ∧
    humanReadableDuration (-5) = [] ∧
    displayTwitterTime 12345 12345 = toStr " ago" :=
  ⟨C10_tiny_elapsed.1 nsPerMillisecond (by decide),
   C10_tiny_elapsed.1 0 (by decide),
   C10_tiny_elapsed.1 (-5) (by decide),
   C10_tiny_elapsed.2 12345 12345 (by decide)⟩

/-! ## Admission controller (titlebot.go, tryAcquireSemaphore / releaseSemaphore)

The Go semaphore is a buffered channel of capacity concurrencyLimit; its
observable state is the number of buffered elements, i.e. the number of
outstanding acquires.  A non-blocking send succeeds exactly when the buffer is
below capacity; a receive removes one element (and in the program is only ever
performed by a holder, so the buffer is non-empty). -/

def tryAcquireSemaphore (sem : Nat) : Bool × Nat :=
  if sem < concurrencyLimit then (true, sem + 1) else (false, sem)

def releaseSemaphore (sem : Nat) : Nat := sem - 1

inductive SemEvent where
  | acq
  | rel
deriving DecidableEq

def semStep (sem : Nat) : SemEvent → Nat
  | .acq => (tryAcquireSemaphore sem).2
  | .rel => releaseSemaphore sem

/-- The states of the semaphore reachable from the initial empty state by
acquire attempts and releases of outstanding slots. -/
inductive SemReachable : Nat → Prop where
  | init : SemReachable 0
  | acq {s : Nat} : SemReachable s → SemReachable (tryAcquireSemaphore s).2
  | rel {s : Nat} : SemReachable s → 0 < s → SemReachable (releaseSemaphore s)

/-! ## The per-URL pipeline boundary (titlebot.go, title)

The body of title after a successful acquire either completes normally or
raises a Go panic part-way through; both are represented by an explicit
outcome value.  The deferred releaseSemaphore and the deferred recover run on
every exit path, so the result records the semaphore events performed, the
log lines written and the notices emitted. -/

inductive ResolveOutcome where
  | ok (notices : List Str)
  | fault (noticesBefore : List Str) (payload : Str)

structure TitleResult where
  events : List SemEvent
  logs : List Str
  notices : List Str

def concurrencyLogMsg (url : Str) : Str :=
  toStr "concurrency limit exceeded, not titling " ++ url

def panicLogMsg (payload : Str) : Str :=
  toStr "Caught panic in callback: " ++ payload

/-- Go source title (lines 112-137): a failed acquire logs and returns with no
release and no notice; after a successful acquire the deferred release and the
deferred recover run on both the normal and the panicking path, the recover
turning the panic into a log entry instead of propagating it. -/
def title (sem : Nat) (url : Str) (outcome : ResolveOutcome) : TitleResult :=
  if (tryAcquireSemaphore sem).1 = false then
    { events := [], logs := [concurrencyLogMsg url], notices := [] }
  else
    match outcome with
    | .ok ns => { events := [.acq, .rel], logs := [], notices := ns }
    | .fault ns payload =>
        { events := [.acq, .rel], logs := [panicLogMsg payload], notices := ns }

/-- Claim C3: every reachable semaphore state (outstanding acquires minus
releases) is at most the capacity 128; tryAcquireSemaphore is a total function
returning success (incrementing the count) or failure (leaving it unchanged);
and an acquire attempted with all 128 slots outstanding is refused, so the
pipeline for that URL ends with only the concurrency log entry and emits
nothing. -/
theorem C3_admission :
    (∀ s : Nat, SemReachable s → s ≤ concurrencyLimit) ∧
    (tryAcquireSemaphore concurrencyLimit).1 = false ∧
    (∀ sem : Nat,
      (tryAcquireSemaphore sem = (true, sem + 1) ∧ sem < concurrencyLimit) ∨
      (tryAcquireSemaphore sem = (false, sem) ∧ concurrencyLimit ≤ sem)) ∧
    (∀ (url : Str) (outcome : ResolveOutcome),
      (title concurrencyLimit url outcome).notices = [] ∧
      (title concurrencyLimit url outcome).logs = [concurrencyLogMsg url] ∧
      (title concurrencyLimit url outcome).events = []) := by
  refine ⟨?_, by decide, ?_, ?_⟩
  · intro s h
    induction h with
    | init => exact Nat.zero_le _
    | acq _ ih =>
        simp only [tryAcquireSemaphore]
        split
        · omega
        · exact ih
    | rel _ _ ih =>
        simp only [releaseSemaphore]
        omega
  · intro sem
    by_cases h : sem < concurrencyLimit
    · exact Or.inl ⟨by simp [tryAcquireSemaphore, h], h⟩
    · exact Or.inr ⟨by simp [tryAcquireSemaphore, h], by omega⟩
  · intro url outcome
    have hfull : (tryAcquireSemaphore concurrencyLimit).1 = false := by decide
    simp [title, hfull]

/-- Witness for claim C3: the invariant applied at the initial state, and the
acquire-outcome disjunction applied at the full state 128. -/
theorem C3_witness :
    (0 ≤ concurrencyLimit) ∧
    ((tryAcquireSemaphore 128 = (true, 129) ∧ 128 < concurrencyLimit) ∨
     (tryAcquireSemaphore 128 = (false, 128) ∧ concurrencyLimit ≤ 128)) :=
  ⟨C3_admission.1 0 SemReachable.init, C3_admission.2.2.1 128⟩

/-- Claim C4: whenever the acquire at the top of title succeeds, the pipeline
performs exactly one acquire followed by exactly one release on every exit
path (normal completion and recovered panic alike), leaving the semaphore
state unchanged, and a panic raised during resolution is converted into a log
entry rather than propagating (title is a total function whose faulting case
still yields a result). -/
theorem C4_scoped_release :
    ∀ (sem : Nat) (url : Str) (outcome : ResolveOutcome),
      sem < concurrencyLimit →
      (title sem url outcome).events = [SemEvent.acq, SemEvent.rel] ∧
      List.foldl semStep sem (title sem url outcome).events = sem ∧
      (∀ ns payload, outcome = ResolveOutcome.fault ns payload →
        (title sem url outcome).logs = [panicLogMsg payload]) ∧
      (∀ ns, outcome = ResolveOutcome.ok ns →
        (title sem url outcome).logs = []) := by
  intro sem url outcome h
  have hacq : (tryAcquireSemaphore sem).1 = true := by
    simp [tryAcquireSemaphore, h]
  have hstep : (tryAcquireSemaphore sem).2 = sem + 1 := by
    simp [tryAcquireSemaphore, h]
  cases outcome with
  | ok ns =>
      refine ⟨by simp [title, hacq], ?_, ?_, ?_⟩
      · simp [title, hacq, List.foldl, semStep, hstep, releaseSemaphore]
      · intro ns payload hcontra
        cases hcontra
      · intro ns hok
        simp [title, hacq]
  | fault ns payload =>
      refine ⟨by simp [title, hacq], ?_, ?_, ?_⟩
      · simp [title, hacq, List.foldl, semStep, hstep, releaseSemaphore]
      · intro ns2 payload2 hfault
        cases hfault
        simp [title, hacq]
      · intro ns2 hcontra
        cases hcontra

/-- Witness for claim C4: the theorem applied at the empty semaphore with a
concrete panicking resolution. -/
theorem C4_witness :
    (title 0 (toStr "https://x.example") (ResolveOutcome.fault [] (toStr "boom"))).events =
      [SemEvent.acq, SemEvent.rel] ∧
    List.foldl semStep 0
      (title 0 (toStr "https://x.example") (ResolveOutcome.fault [] (toStr "boom"))).events = 0 :=
  ⟨(C4_scoped_release 0 (toStr "https://x.example")
      (ResolveOutcome.fault [] (toStr "boom")) (by decide)).1,
   (C4_scoped_release 0 (toStr "https://x.example")
      (ResolveOutcome.fault [] (toStr "boom")) (by decide)).2.1⟩

/-! ## Dispatcher truncation (titlebot.go, titleAll) -/

/-- Go source titleAll: the list of URLs actually passed to the per-URL
pipeline, truncated to maxUrlsPerMessage when longer. -/
def titleAllUrls (urls : List Str) : List Str :=
  if urls.length > maxUrlsPerMessage then urls.take maxUrlsPerMessage else urls

theorem titleAllUrls_eq_take (urls : List Str) :
    titleAllUrls urls = urls.take maxUrlsPerMessage := by
  unfold titleAllUrls
  split
  · rfl
  · exact (List.take_of_length_le (by omega)).symm

/-- Claim C9: the Dispatcher launches pipelines for exactly the first 4
extracted URLs in order of first occurrence (the processed list is always the
4-prefix of the extracted list), and a message with 6 distinct URLs results in
exactly 4 pipelines. -/
theorem C9_dispatcher_truncation :
    (∀ urls : List Str, titleAllUrls urls = urls.take maxUrlsPerMessage) ∧
    (∀ urls : List Str, maxUrlsPerMessage ≤ urls.length →
      (titleAllUrls urls).length = maxUrlsPerMessage) ∧
    titleAllUrls
      [toStr "https://1.example", toStr "https://2.example", toStr "https://3.example",
       toStr "https://4.example", toStr "https://5.example", toStr "https://6.example"] =
      [toStr "https://1.example", toStr "https://2.example", toStr "https://3.example",
       toStr "https://4.example"] := by
  refine ⟨titleAllUrls_eq_take, ?_, by decide⟩
  intro urls h
  rw [titleAllUrls_eq_take, List.length_take]
  omega

/-- Witness for claim C9: the length conjunct applied to the concrete six-URL
message. -/
theorem C9_witness :
    (titleAllUrls
      [toStr "https://1.example", toStr "https://2.example", toStr "https://3.example",
       toStr "https://4.example", toStr "https://5.example", toStr "https://6.example"]).length =
      maxUrlsPerMessage :=
  C9_dispatcher_truncation.2.1
    [toStr "https://1.example", toStr "https://2.example", toStr "https://3.example",
     toStr "https://4.example", toStr "https://5.example", toStr "https://6.example"]
    (by decide)

/-! ## Text scanner (titlebot.go, urlRe and findURL)

The pattern is a word boundary, then a case-insensitive http:// or https://,
then a lazy run of non-newline characters up to the next whitespace character
or the end of the string; findURL collects the first capture group of every
non-overlapping match from left to right, resuming after the terminating
whitespace.  The RE2 character classes involved are ASCII: word characters
are letters, digits and underscore, and whitespace is space, tab, newline,
form feed and carriage return. -/

def isWordChar (c : Char) : Bool := c.isAlphanum || c = '_'

def isSpaceRE (c : Char) : Bool :=
  c = ' ' || c = '\t' || c = '\n' || c = '\x0c' || c = '\r'

/-- Case-insensitive prefix test: the first argument is the (lowercase)
pattern, the second the text, compared after ASCII lowercasing. -/
def startsWithCI : List Char → Str → Bool
  | [], _ => true
  | _ :: _, [] => false
  | p :: ps, c :: cs => (c.toLower == p) && startsWithCI ps cs

/-- The scheme alternatives of urlRe (greedy optional s first, as the regex
tries them). -/
def httpPrefixAt (s : Str) : Bool :=
  startsWithCI (toStr "https://") s || startsWithCI (toStr "http://") s

/-- The word-boundary test of urlRe before the scheme: satisfied at the start
of the string or after a non-word character (the next matched character is
always a word character, the h of the scheme). -/
def boundaryOK : Option Char → Bool
  | none => true
  | some c => !isWordChar c

/-- Left-to-right scan of the message implementing FindAllStringSubmatch for
urlRe: prev is the character immediately before the current position (none at
the start).  At a position passing the word-boundary and scheme tests, the
lazy run extends to the character before the next regex whitespace character
or the end of the string; the match consumes the terminating whitespace, and
scanning resumes after it.  The fuel argument is a bound on the number of
characters still to be examined (each step consumes at least one character),
making the recursion structural; findURL supplies the string length, which is
always sufficient. -/
def scanURLsFuel : Nat → Option Char → Str → List Str
  | 0, _, _ => []
  | _ + 1, _, [] => []
  | fuel + 1, prev, c :: rest =>
    if boundaryOK prev && httpPrefixAt (c :: rest) then
      let url := (c :: rest).takeWhile (fun ch => !isSpaceRE ch)
      match (c :: rest).drop url.length with
      | [] => [url]
      | w :: tail => url :: scanURLsFuel fuel (some w) tail
    else scanURLsFuel fuel (some c) rest

/-- Go source findURL: every first capture group of every match of urlRe, in
order. -/
def findURL (str : Str) : List Str := scanURLsFuel str.length none str

/-- The claim wording of URL extraction, with no word-boundary requirement:
a URL starts wherever a case-insensitive http(s):// prefix begins. -/
def claimScanFuel : Nat → Str → List Str
  | 0, _ => []
  | _ + 1, [] => []
  | fuel + 1, c :: rest =>
    if httpPrefixAt (c :: rest) then
      let url := (c :: rest).takeWhile (fun ch => !isSpaceRE ch)
      match (c :: rest).drop url.length with
      | [] => [url]
      | _ :: tail => url :: claimScanFuel fuel tail
    else claimScanFuel fuel rest

def claimScanURLs (s : Str) : List Str := claimScanFuel s.length s

theorem toLower_space_not_scheme (c : Char) (hs : isSpaceRE c = true) :
    c.toLower ∉ toStr "https://" ∧ c.toLower ∉ toStr "http://" := by
  simp only [isSpaceRE, Bool.or_eq_true, decide_eq_true_eq] at hs
  rcases hs with (((rfl | rfl) | rfl) | rfl) | rfl <;> exact ⟨by decide, by decide⟩

theorem startsWithCI_takeWhile (pat s : Str)
    (hp : ∀ c : Char, isSpaceRE c = true → c.toLower ∉ pat)
    (h : startsWithCI pat s = true) :
    startsWithCI pat (s.takeWhile (fun ch => !isSpaceRE ch)) = true := by
  induction pat generalizing s with
  | nil => rfl
  | cons p ps ih =>
    cases s with
    | nil => simp [startsWithCI] at h
    | cons c cs =>
      simp only [startsWithCI, Bool.and_eq_true, beq_iff_eq] at h
      obtain ⟨hc, hrest⟩ := h
      have hcs : isSpaceRE c = false := by
        cases hspace : isSpaceRE c with
        | false => rfl
        | true => exact absurd (hc ▸ List.mem_cons_self p ps) (hp c hspace)
      rw [List.takeWhile_cons]
      simp only [hcs, Bool.not_false, if_true]
      simp only [startsWithCI, hc, beq_self_eq_true, Bool.true_and]
      exact ih cs (fun d hd hm => hp d hd (List.mem_cons_of_mem _ hm)) hrest

theorem httpPrefixAt_takeWhile (s : Str) (h : httpPrefixAt s = true) :
    httpPrefixAt (s.takeWhile (fun ch => !isSpaceRE ch)) = true := by
  simp only [httpPrefixAt, Bool.or_eq_true] at h ⊢
  rcases h with h | h
  · exact Or.inl (startsWithCI_takeWhile _ _
      (fun c hc => (toLower_space_not_scheme c hc).1) h)
  · exact Or.inr (startsWithCI_takeWhile _ _
      (fun c hc => (toLower_space_not_scheme c hc).2) h)

theorem scanURLsFuel_mem (fuel : Nat) :
    ∀ (prev : Option Char) (s u : Str), u ∈ scanURLsFuel fuel prev s →
      httpPrefixAt u = true ∧ ∀ ch ∈ u, isSpaceRE ch = false := by
  induction fuel with
  | zero =>
    intro prev s u hu
    simp [scanURLsFuel] at hu
  | succ n ih =>
    intro prev s u hu
    cases s with
    | nil => simp [scanURLsFuel] at hu
    | cons c rest =>
      simp only [scanURLsFuel] at hu
      by_cases hb : (boundaryOK prev && httpPrefixAt (c :: rest)) = true
      · rw [if_pos hb] at hu
        have hpre : httpPrefixAt (c :: rest) = true := (Bool.and_eq_true _ _).mp hb |>.2
        have hurl : httpPrefixAt ((c :: rest).takeWhile (fun ch => !isSpaceRE ch)) = true ∧
            ∀ ch ∈ (c :: rest).takeWhile (fun ch => !isSpaceRE ch), isSpaceRE ch = false := by
          refine ⟨httpPrefixAt_takeWhile _ hpre, ?_⟩
          intro ch hch
          have := List.mem_takeWhile_imp hch
          simpa using this
        split at hu
        · simp only [List.mem_singleton] at hu
          exact hu ▸ hurl
        · rcases List.mem_cons.mp hu with rfl | hmem
          · exact hurl
          · exact ih _ _ _ hmem
      · rw [if_neg hb] at hu
        exact ih _ _ _ hu

/-- Claim C5, as stated, is false at the concrete input message "xhttp://a":
the message contains a substring beginning with the case-insensitive scheme
(namely "http://a", extending to the end of the string), yet findURL returns
the empty sequence because the regex requires a word boundary before the
scheme and the preceding x is a word character. -/
theorem C5_counterexample :
    findURL (toStr "xhttp://a") = [] ∧
    claimScanURLs (toStr "xhttp://a") = [toStr "http://a"] ∧
    ([] : List Str) ≠ [toStr "http://a"] := by
  refine ⟨by decide, by decide, by decide⟩

/-- Claim C5 amended: findURL returns the ordered sequence of substrings that
begin with a case-insensitive http:// or https:// AT A WORD BOUNDARY (start of
string or preceded by a character other than a letter, digit or underscore)
and extend to (but exclude) the next whitespace character or end of string.
The two-URL example scans as claimed, a message with no such substring yields
the empty sequence, and every returned string starts with the scheme and
contains no whitespace. -/
theorem C5_findURL :
    findURL (toStr "check https://a.example/x and https://b.example/y") =
      [toStr "https://a.example/x", toStr "https://b.example/y"] ∧
    findURL (toStr "a plain message with no links at all") = [] ∧
    (∀ s u : Str, u ∈ findURL s →
      httpPrefixAt u = true ∧ ∀ ch ∈ u, isSpaceRE ch = false) := by
  refine ⟨by decide, by decide, ?_⟩
  intro s u hu
  exact scanURLsFuel_mem s.length none s u hu

/-- Witness for claim C5: the well-formedness conjunct applied to the first
URL extracted from the concrete two-URL message, with the membership
hypothesis discharged by evaluation. -/
theorem C5_witness :
    httpPrefixAt (toStr "https://a.example/x") = true ∧
    ∀ ch ∈ toStr "https://a.example/x", isSpaceRE ch = false :=
  C5_findURL.2.2 (toStr "check https://a.example/x and https://b.example/y")
    (toStr "https://a.example/x") (by decide)

/-! ## Platform classifier (titlebot.go, blueskyRe and extractBlueskyData)

blueskyRe is the unanchored pattern: the literal https://bsky.app/profile/,
a nonempty greedy run of non-slash characters (the handle), the literal
/post/, and a nonempty greedy run of non-slash characters (the post id).
Because both runs exclude the slash, greediness is deterministic: the handle
is the maximal non-slash run after the prefix, and the literal /post/ must
follow it directly. -/

def bskyPrefixLit : Str := toStr "https://bsky.app/profile/"

def bskyPostLit : Str := toStr "/post/"

/-- One attempt of blueskyRe starting exactly at the head of s. -/
def matchBskyAt (s : Str) : Option (Str × Str) :=
  if bskyPrefixLit.isPrefixOf s then
    let s1 := s.drop bskyPrefixLit.length
    let handle := s1.takeWhile (fun c => c != '/')
    if handle.isEmpty then none
    else
      let s2 := s1.drop handle.length
      if bskyPostLit.isPrefixOf s2 then
        let s3 := s2.drop bskyPostLit.length
        let postid := s3.takeWhile (fun c => c != '/')
        if postid.isEmpty then none else some (handle, postid)
      else none
  else none

/-- Leftmost match of blueskyRe: try every start position from the left. -/
def bskyScan : Str → Option (Str × Str)
  | [] => none
  | c :: rest =>
    match matchBskyAt (c :: rest) with
    | some r => some r
    | none => bskyScan rest

/-- Go source extractBlueskyData: the two capture groups of the first match
of blueskyRe, or a pair of empty strings when there is no match. -/
def extractBlueskyData (url : Str) : Str × Str :=
  match bskyScan url with
  | some (handle, postid) => (handle, postid)
  | none => ([], [])

inductive Classification where
  | social (handle postid : Str)
  | generic
deriving DecidableEq

/-- The dispatch in title (lines 132-137): a URL goes to the social resolver
iff the extracted handle is non-empty, and otherwise to the generic
resolver. -/
def classifyURL (url : Str) : Classification :=
  let hp := extractBlueskyData url
  if hp.1.isEmpty then Classification.generic else Classification.social hp.1 hp.2

theorem matchBskyAt_nonempty (s h p : Str) (hm : matchBskyAt s = some (h, p)) :
    h ≠ [] ∧ p ≠ [] := by
  simp only [matchBskyAt] at hm
  split at hm
  · split at hm
    · exact absurd hm (by simp)
    · split at hm
      · split at hm
        · exact absurd hm (by simp)
        · rename_i hh _ hp2
          injection hm with hm
          injection hm with hm1 hm2
          subst hm1
          subst hm2
          constructor
          · simpa [List.isEmpty_iff] using hh
          · simpa [List.isEmpty_iff] using hp2
      · exact absurd hm (by simp)
  · exact absurd hm (by simp)

theorem bskyScan_nonempty (s : Str) :
    ∀ h p : Str, bskyScan s = some (h, p) → h ≠ [] ∧ p ≠ [] := by
  induction s with
  | nil => intro h p hm; simp [bskyScan] at hm
  | cons c rest ih =>
    intro h p hm
    simp only [bskyScan] at hm
    cases hat : matchBskyAt (c :: rest) with
    | some r =>
      rw [hat] at hm
      obtain ⟨h2, p2⟩ := r
      injection hm with hm
      injection hm with hm1 hm2
      subst hm1; subst hm2
      exact matchBskyAt_nonempty _ _ _ hat
    | none =>
      rw [hat] at hm
      exact ih h p hm

theorem extractBlueskyData_cases (url : Str) :
    extractBlueskyData url = ([], []) ∨
    ((extractBlueskyData url).1 ≠ [] ∧ (extractBlueskyData url).2 ≠ []) := by
  unfold extractBlueskyData
  cases hs : bskyScan url with
  | none => exact Or.inl rfl
  | some r =>
    obtain ⟨h, p⟩ := r
    exact Or.inr (bskyScan_nonempty url h p hs)

/-- Claim C8: the platform classifier is a total function on URLs with
exactly two outcomes; whenever it produces a social post identity both the
handle and the post id are non-empty, and a partially matching social-looking
URL (a bsky.app profile URL with no post segment) falls through to generic
handling, as does an unrelated URL. -/
theorem C8_classifier :
    (∀ url : Str,
      extractBlueskyData url = ([], []) ∨
      ((extractBlueskyData url).1 ≠ [] ∧ (extractBlueskyData url).2 ≠ [])) ∧
    (∀ url handle postid : Str,
      classifyURL url = Classification.social handle postid →
      handle ≠ [] ∧ postid ≠ []) ∧
    classifyURL (toStr "https://bsky.app/profile/alice.bsky.social") =
      Classification.generic ∧
    classifyURL (toStr "https://bsky.app/profile/alice.bsky.social/post/3k44abc") =
      Classification.social (toStr "alice.bsky.social") (toStr "3k44abc") ∧
    classifyURL (toStr "https://example.com/page") = Classification.generic := by
  refine ⟨extractBlueskyData_cases, ?_, by decide, by decide, by decide⟩
  intro url handle postid hc
  simp only [classifyURL] at hc
  split at hc
  · exact absurd hc (by simp)
  · rename_i hne
    injection hc with h1 h2
    subst h1; subst h2
    rcases extractBlueskyData_cases url with hz | hok
    · rw [hz] at hne
      simp at hne
    · exact hok

/-- Witness for claim C8: the non-emptiness conjunct applied to a concrete
social post URL, with the classification hypothesis discharged by
evaluation. -/
theorem C8_witness :
    toStr "alice.bsky.social" ≠ [] ∧ toStr "3k44abc" ≠ [] :=
  C8_classifier.2.1 (toStr "https://bsky.app/profile/alice.bsky.social/post/3k44abc")
    (toStr "alice.bsky.social") (toStr "3k44abc") (by decide)

/-! ## Generic resolver (titlebot.go, genericTitleRe, titleGeneric, analyzeURL) -/

/-- Split at the first occurrence of a character: the (possibly empty) run
before it and the remainder after it, or none when the character is absent. -/
def splitAtChar (target : Char) (s : Str) : Option (Str × Str) :=
  let before := s.takeWhile (fun c => c != target)
  match s.drop before.length with
  | [] => none
  | _ :: after => some (before, after)

/-- One attempt of genericTitleRe at a position just after a literal less-than
sign: optional regex whitespace, the case-insensitive word title followed by a
word boundary, a lazy dot-all run up to the first greater-than sign, then the
capture group, a lazy dot-all run up to the next less-than sign. -/
def matchTitleAt (s : Str) : Option Str :=
  let s1 := s.dropWhile isSpaceRE
  if startsWithCI (toStr "title") s1 then
    let s2 := s1.drop 5
    match s2 with
    | [] => none
    | c :: _ =>
      if isWordChar c then none
      else
        match splitAtChar '>' s2 with
        | none => none
        | some (_, afterGt) =>
          match splitAtChar '<' afterGt with
          | none => none
          | some (captured, _) => some captured
  else none

/-- Leftmost match of genericTitleRe over the body: the first position with a
less-than sign at which the rest of the pattern succeeds yields the capture
group. -/
def findTitleTag : Str → Option Str
  | [] => none
  | c :: rest =>
    if c = '<' then
      match matchTitleAt rest with
      | some t => some t
      | none => findTitleTag rest
    else findTitleTag rest

/-- Go unicode.IsSpace over the Latin-1 range (the characters
strings.TrimSpace strips: tab, newline, vertical tab, form feed, carriage
return, space, next-line and no-break space); TrimSpace also strips higher
Unicode space runes, which do not occur in the strings considered here. -/
def isGoSpace (c : Char) : Bool :=
  c = ' ' || c = '\t' || c = '\n' || c = '\x0b' || c = '\x0c' || c = '\r' ||
  c = '\x85' || c = '\xa0'

/-- Go strings.TrimSpace: remove leading and trailing white space. -/
def trimSpace (s : Str) : Str :=
  ((s.dropWhile isGoSpace).reverse.dropWhile isGoSpace).reverse

/-- Modelled from the spec: ircutils.SanitizeText (from the external irc-go
library, not part of this repository) is the text-sanitization primitive that
strips control characters before transmission and truncates to the maximum
display length; the model removes ASCII control characters and truncates to
the given limit. -/
def SanitizeText (s : Str) (limit : Nat) : Str :=
  (s.filter (fun c => !(decide (c.toNat < 32) || decide (c.toNat = 127)))).take limit

/-- Modelled from the spec: the generic resolver must decode HTML entities,
which the Go code performs via the standard library html.UnescapeString (not
part of this repository).  The model implements the decoding scan for the
named entities exercised here (amp, lt, gt, quot, #39); an ampersand starting
no known entity passes through unchanged, as UnescapeString leaves unknown
entities.  Fuel bounds the remaining length (each step consumes at least one
character), making the recursion structural. -/
def unescapeFuel : Nat → Str → Str
  | 0, s => s
  | _ + 1, [] => []
  | fuel + 1, c :: rest =>
    if c = '&' then
      if (toStr "amp;").isPrefixOf rest then '&' :: unescapeFuel fuel (rest.drop 4)
      else if (toStr "lt;").isPrefixOf rest then '<' :: unescapeFuel fuel (rest.drop 3)
      else if (toStr "gt;").isPrefixOf rest then '>' :: unescapeFuel fuel (rest.drop 3)
      else if (toStr "quot;").isPrefixOf rest then '"' :: unescapeFuel fuel (rest.drop 5)
      else if (toStr "#39;").isPrefixOf rest then
        Char.ofNat 39 :: unescapeFuel fuel (rest.drop 4)
      else c :: unescapeFuel fuel rest
    else c :: unescapeFuel fuel rest

def unescapeHTML (s : Str) : Str := unescapeFuel s.length s

/-- The byte-limit half of analyzeURL for an already-parsed, port-stripped,
lowercased host: hosts on the allow-list get the extended budget, everything
else the standard one. -/
def hostByteLimit (host : Str) : Nat :=
  if isGarbageJSDomain host then trustedReadLimit else genericTitleReadLimit

structure HttpResponse where
  status : Nat
  body : Str

/-- Go source titleGeneric after the fetch policy has produced the byte
limit: none models a transport error (logged, nothing emitted); a non-200
status emits nothing; on 200 the body is truncated at the byte limit exactly
as the LimitedReader does, the title pattern is run against it, and a match
is entity-decoded, whitespace-trimmed, sanitized and truncated, and emitted
as the single notice only when the result is non-empty. -/
def titleGeneric (byteLimit : Nat) (resp : Option HttpResponse) : List Str :=
  match resp with
  | none => []
  | some r =>
    if r.status = 200 then
      let body := r.body.take byteLimit
      match findTitleTag body with
      | some raw =>
        let t := SanitizeText (trimSpace (unescapeHTML raw)) titleCharLimit
        if t.length ≠ 0 then [t] else []
      | none => []
    else []

/-- Claim C6: with the standard byte budget, a 200 response whose body holds
the title Hello &amp; World surrounded by spaces produces exactly the one
notice Hello & World; in general titleGeneric emits at most one notice, and
every emitted notice is non-empty and is exactly the entity-decoded, trimmed,
sanitized and truncated capture of the title pattern over the truncated body
(the extraction is a pure function of the body bytes by construction). -/
theorem C6_titleGeneric :
    titleGeneric genericTitleReadLimit
      (some ⟨200,
        toStr "<html><head><title>  Hello &amp; World  </title></head><body>x</body></html>"⟩) =
      [toStr "Hello & World"] ∧
    (∀ (lim : Nat) (resp : Option HttpResponse),
      (titleGeneric lim resp).length ≤ 1 ∧
      ∀ t ∈ titleGeneric lim resp, t ≠ [] ∧
        ∃ r raw, resp = some r ∧ r.status = 200 ∧
          findTitleTag (r.body.take lim) = some raw ∧
          t = SanitizeText (trimSpace (unescapeHTML raw)) titleCharLimit) := by
  refine ⟨by decide, ?_⟩
  intro lim resp
  cases resp with
  | none => simp [titleGeneric]
  | some r =>
    constructor
    · simp only [titleGeneric]
      split
      · split
        · split <;> simp
        · simp
      · simp
    · intro t ht
      simp only [titleGeneric] at ht
      split at ht
      · split at ht
        · split at ht
          · simp only [List.mem_singleton] at ht
            subst ht
            rename_i hlen
            refine ⟨?_, r, _, rfl, by assumption, by assumption, rfl⟩
            intro hnil
            exact hlen (by rw [hnil]; rfl)
          · simp at ht
        · simp at ht
      · simp at ht

/-- Witness for claim C6: the characterization applied to the emitted notice
of the concrete body, with the membership hypothesis discharged by
evaluation. -/
theorem C6_witness :
    toStr "Hello & World" ≠ [] ∧
    ∃ r raw,
      (some (⟨200,
        toStr "<html><head><title>  Hello &amp; World  </title></head><body>x</body></html>"⟩ :
          HttpResponse)) = some r ∧ r.status = 200 ∧
      findTitleTag (r.body.take genericTitleReadLimit) = some raw ∧
      toStr "Hello & World" = SanitizeText (trimSpace (unescapeHTML raw)) titleCharLimit :=
  (C6_titleGeneric.2 genericTitleReadLimit
    (some ⟨200,
      toStr "<html><head><title>  Hello &amp; World  </title></head><body>x</body></html>"⟩)).2
    (toStr "Hello & World") (by decide)

/-! ## Social resolver (titlebot.go, titleBluesky, resolveBlueskyHandle,
getBlueskyPost)

The two HTTP calls are abstracted as outcome values: a transport error, or a
response with a status code and either a decoded JSON payload or none for a
body that fails JSON decoding.  A decoded payload may still have empty fields
(absent members decode to Go zero values). -/

inductive HttpOutcome (α : Type) where
  | netErr
  | response (status : Nat) (json : Option α)

structure ResolveHandleResponse where
  did : Str
deriving DecidableEq

structure BlueskyPostRecord where
  text : Str
  createdAt : Str
deriving DecidableEq

structure GetRecordResponse where
  value : BlueskyPostRecord
deriving DecidableEq

/-- Go source resolveBlueskyHandle: the empty string on transport error,
non-200 status or malformed JSON; otherwise the did field of the payload. -/
def resolveBlueskyHandle : HttpOutcome ResolveHandleResponse → Str
  | .netErr => []
  | .response status json =>
    if status ≠ 200 then []
    else
      match json with
      | none => []
      | some r => r.did

/-- Go source getBlueskyPost: a non-nil error only on transport failure; on a
non-200 status, and likewise on a JSON decode failure, the function logs but
returns the ZERO record together with a nil error (the named err return still
holds nil on those paths), so the caller proceeds with an empty record. -/
def getBlueskyPost : HttpOutcome GetRecordResponse → Except Unit BlueskyPostRecord
  | .netErr => .error ()
  | .response status json =>
    if status ≠ 200 then .ok ⟨[], []⟩
    else
      match json with
      | none => .ok ⟨[], []⟩
      | some r => .ok r.value

/-- A fixed-width run of exactly w ASCII digits, accumulated into acc,
returning the value and the rest of the input. -/
def parseFixedNat : Nat → Nat → Str → Option (Nat × Str)
  | 0, acc, s => some (acc, s)
  | _ + 1, _, [] => none
  | w + 1, acc, c :: rest =>
    if c.isDigit then parseFixedNat w (acc * 10 + (c.toNat - 48)) rest else none

def expectChar (c : Char) : Str → Option Str
  | [] => none
  | d :: rest => if d = c then some rest else none

/-- Go getnum with fixed=false, used for layout elements that are not zero
padded such as the hour element 15: the first character must be a digit, and
a second digit is consumed greedily when present, so one- and two-digit
values are both accepted. -/
def parseVarNat2 : Str → Option (Nat × Str)
  | [] => none
  | c :: rest =>
    if c.isDigit then
      match rest with
      | d :: rest2 =>
        if d.isDigit then some ((c.toNat - 48) * 10 + (d.toNat - 48), rest2)
        else some (c.toNat - 48, d :: rest2)
      | [] => some (c.toNat - 48, [])
    else none

/-- Go parseNanoseconds accepts either a period or a comma before the
fractional digits of the .000 layout element. -/
def expectCommaOrPeriod : Str → Option Str
  | [] => none
  | d :: rest => if d = '.' ∨ d = ',' then some rest else none

def isLeapYear (y : Int) : Bool :=
  (y.emod 4 == 0 && y.emod 100 != 0) || y.emod 400 == 0

def daysInMonth (y : Int) (m : Nat) : Nat :=
  if m = 2 then (if isLeapYear y then 29 else 28)
  else if m = 4 ∨ m = 6 ∨ m = 9 ∨ m = 11 then 30 else 31

/-- Days since 1970-01-01 of a proleptic Gregorian calendar date (the
standard days-from-civil algorithm, the inverse of civilFromDays). -/
def daysFromCivil (y : Int) (m d : Nat) : Int :=
  let yAdj := y - (if m ≤ 2 then 1 else 0)
  let era := yAdj.fdiv 400
  let yoe := yAdj - era * 400
  let mp : Int := if m > 2 then (m : Int) - 3 else (m : Int) + 9
  let doy := (153 * mp + 2).fdiv 5 + (d : Int) - 1
  let doe := yoe * 365 + yoe.fdiv 4 - yoe.fdiv 100 + doy
  era * 146097 + doe - 719468

/-- A fixed sequence of zero-padded digit fields, each of the given width and
each followed by its literal separator character. -/
def parseFields : List (Nat × Char) → Str → Option (List Nat × Str)
  | [], s => some ([], s)
  | (w, sep) :: rest, s =>
    match parseFixedNat w 0 s with
    | none => none
    | some (v, s1) =>
      match expectChar sep s1 with
      | none => none
      | some s2 =>
        match parseFields rest s2 with
        | none => none
        | some (vs, s3) => some (v :: vs, s3)

/-- Go time.Parse against the fixed layout 2006-01-02T15:04:05.000Z
(IRCv3TimestampFormat): a four-digit year and two-digit zero-padded month,
day, minute and second; a one- OR two-digit hour (the layout element 15 is
not zero padded, so Go getnum takes one digit, or two greedily when the next
character is also a digit); a period or comma (both accepted by Go
parseNanoseconds) followed by exactly three fractional digits; the literal
separators; a literal trailing Z (no zone, hence UTC) and nothing after it.
Field values are range-checked as Go does (month 1-12, day valid for the
month and year, hour 0-23, minute and second 0-59).  The result is
nanoseconds since the Unix epoch. -/
def parseIRCv3Time (s : Str) : Option Int :=
  match parseFields [(4, '-'), (2, '-'), (2, 'T')] s with
  | some ([y, mo, d], s1) =>
    match parseVarNat2 s1 with
    | none => none
    | some (h, s2) =>
      match expectChar ':' s2 with
      | none => none
      | some s3 =>
        match parseFields [(2, ':')] s3 with
        | some ([mi], s4) =>
          match parseFixedNat 2 0 s4 with
          | none => none
          | some (sec, s5) =>
            match expectCommaOrPeriod s5 with
            | none => none
            | some s6 =>
              match parseFields [(3, 'Z')] s6 with
              | some ([ms], []) =>
                if 1 ≤ mo ∧ mo ≤ 12 ∧ 1 ≤ d ∧ d ≤ daysInMonth (y : Int) mo ∧
                    h ≤ 23 ∧ mi ≤ 59 ∧ sec ≤ 59 then
                  some ((daysFromCivil (y : Int) mo d * 86400 + (h : Int) * 3600 +
                    (mi : Int) * 60 + (sec : Int)) * nsPerSecond +
                    (ms : Int) * nsPerMillisecond)
                else none
              | _ => none
        | _ => none
  | _ => none

/-- Go source titleBluesky: resolve the handle (an empty did aborts), fetch
the record (a non-nil error aborts), parse the creation timestamp (a parse
failure aborts), and only then emit the single formatted notice
(@handle, time) text.  The post id only shapes the request URL, which the
outcome value abstracts; now is the current instant used by time.Since. -/
def titleBluesky (handle : Str)
    (resolveOutcome : HttpOutcome ResolveHandleResponse)
    (recordOutcome : HttpOutcome GetRecordResponse) (now : Int) : List Str :=
  let did := resolveBlueskyHandle resolveOutcome
  if did.isEmpty then []
  else
    match getBlueskyPost recordOutcome with
    | .error _ => []
    | .ok record =>
      match parseIRCv3Time record.createdAt with
      | none => []
      | some ts =>
        [toStr "(@" ++ handle ++ toStr ", " ++ displayTwitterTime now ts ++
          toStr ") " ++ SanitizeText record.text titleCharLimit]

/-- Claim C7: every failure of the social resolution pipeline produces zero
outbound notices: a transport error, a non-200 status or malformed JSON on
the identity-resolution call; a transport error, a non-200 status or
malformed JSON on the record-lookup call (the latter two leave the zero
record whose empty timestamp then fails to parse); and a creation timestamp
that fails the fixed-format parse.  Conversely a notice is emitted only when
the handle resolves to a non-empty did, the record lookup returns without
error and the timestamp parses, and a fully successful resolution emits
exactly the formatted notice — also when the creation timestamp carries a
single-digit hour, which the non-zero-padded hour element of the Go layout
accepts. -/
theorem C7_social_failures :
    (∀ (handle : Str) (recordO : HttpOutcome GetRecordResponse) (now : Int)
       (st : Nat) (json : Option ResolveHandleResponse), st ≠ 200 →
      titleBluesky handle (.response st json) recordO now = []) ∧
    (∀ (handle : Str) (recordO : HttpOutcome GetRecordResponse) (now : Int),
      titleBluesky handle .netErr recordO now = []) ∧
    (∀ (handle : Str) (recordO : HttpOutcome GetRecordResponse) (now : Int)
       (st : Nat), titleBluesky handle (.response st none) recordO now = []) ∧
    (∀ (handle : Str) (resolveO : HttpOutcome ResolveHandleResponse) (now : Int),
      titleBluesky handle resolveO .netErr now = []) ∧
    (∀ (handle : Str) (resolveO : HttpOutcome ResolveHandleResponse) (now : Int)
       (st : Nat), titleBluesky handle resolveO (.response st none) now = []) ∧
    (∀ (handle : Str) (resolveO : HttpOutcome ResolveHandleResponse) (now : Int)
       (st : Nat) (rec : GetRecordResponse), st ≠ 200 →
      titleBluesky handle resolveO (.response st (some rec)) now = []) ∧
    (∀ (handle : Str) (resolveO : HttpOutcome ResolveHandleResponse) (now : Int)
       (rec : GetRecordResponse), parseIRCv3Time rec.value.createdAt = none →
      titleBluesky handle resolveO (.response 200 (some rec)) now = []) ∧
    (∀ (handle : Str) (resolveO : HttpOutcome ResolveHandleResponse)
       (recordO : HttpOutcome GetRecordResponse) (now : Int),
      titleBluesky handle resolveO recordO now ≠ [] →
      resolveBlueskyHandle resolveO ≠ [] ∧
      ∃ rec ts, getBlueskyPost recordO = Except.ok rec ∧
        parseIRCv3Time rec.createdAt = some ts) ∧
    titleBluesky (toStr "alice") (.response 200 (some ⟨toStr "did:plc:abc"⟩))
      (.response 200 (some ⟨⟨toStr "hello", toStr "2024-03-01T12:00:00.000Z"⟩⟩))
      1709299800000000000 = [toStr "(@alice, 1h30m ago) hello"] ∧
    titleBluesky (toStr "alice") (.response 200 (some ⟨toStr "did:plc:abc"⟩))
      (.response 200 (some ⟨⟨toStr "hi", toStr "2024-03-01T9:30:05.000Z"⟩⟩))
      (1709285405000000000 + 90 * nsPerMinute) = [toStr "(@alice, 1h30m ago) hi"] := by
  have hparsenil : parseIRCv3Time ([] : Str) = none := rfl
  refine ⟨?_, ?_, ?_, ?_, ?_, ?_, ?_, ?_, by decide, by decide⟩
  · intro handle recordO now st json hst
    simp [titleBluesky, resolveBlueskyHandle, hst]
  · intro handle recordO now
    simp [titleBluesky, resolveBlueskyHandle]
  · intro handle recordO now st
    simp only [titleBluesky, resolveBlueskyHandle]
    split <;> simp
  · intro handle resolveO now
    simp only [titleBluesky, getBlueskyPost]
    split <;> simp
  · intro handle resolveO now st
    have hz : getBlueskyPost (.response st none) = Except.ok ⟨[], []⟩ := by
      simp only [getBlueskyPost]
      split <;> rfl
    simp [titleBluesky, hz, hparsenil]
  · intro handle resolveO now st rec hst
    have hz : getBlueskyPost (.response st (some rec)) = Except.ok ⟨[], []⟩ := by
      simp [getBlueskyPost, hst]
    simp [titleBluesky, hz, hparsenil]
  · intro handle resolveO now rec hts
    have hz : getBlueskyPost (.response 200 (some rec)) = Except.ok rec.value := by
      simp [getBlueskyPost]
    simp [titleBluesky, hz, hts]
  · intro handle resolveO recordO now hne
    simp only [titleBluesky] at hne
    by_cases hdid : (resolveBlueskyHandle resolveO).isEmpty = true
    · rw [if_pos hdid] at hne
      exact absurd rfl hne
    · rw [if_neg hdid] at hne
      refine ⟨fun hcontra => hdid (by simp [hcontra]), ?_⟩
      split at hne
      · exact absurd rfl hne
      · rename_i record heq
        split at hne
        · exact absurd rfl hne
        · rename_i ts hts
          exact ⟨record, ts, heq, hts⟩

/-- Witness for claim C7: the non-200 identity-resolution conjunct applied at
the concrete 404 case, and the timestamp-failure conjunct applied at a record
whose timestamp omits the millisecond field. -/
theorem C7_witness :
    titleBluesky (toStr "alice") (.response 404 none)
      (.response 200 (some ⟨⟨toStr "hello", toStr "2024-03-01T12:00:00.000Z"⟩⟩)) 0 = [] ∧
    titleBluesky (toStr "alice") (.response 200 (some ⟨toStr "did:plc:abc"⟩))
      (.response 200 (some ⟨⟨toStr "hello", toStr "2024-03-01T12:00:00Z"⟩⟩)) 0 = [] :=
  ⟨C7_social_failures.1 (toStr "alice")
      (.response 200 (some ⟨⟨toStr "hello", toStr "2024-03-01T12:00:00.000Z"⟩⟩)) 0 404 none
      (by decide),
   C7_social_failures.2.2.2.2.2.2.1 (toStr "alice")
      (.response 200 (some ⟨toStr "did:plc:abc"⟩)) 0
      ⟨⟨toStr "hello", toStr "2024-03-01T12:00:00Z"⟩⟩ (by decide)⟩
